import Mathlib
namespace Crev

/-- Errors are `bail!`/`format_err!` message strings. -/
abbrev Err := String

/-- Model of `level::Level` (the `level` module is not under src/; per the spec an
ordered enum Low < Medium < High). -/
inductive Level where
  | Low
  | Medium
  | High
deriving DecidableEq, Repr

/-- Struct `RevisionInfo` from src/repo/mod.rs lines 22-25. -/
structure RevisionInfo where
  type_ : String
  revision : String
deriving DecidableEq, Repr

/-- Struct `ProjectConfig` from src/repo/mod.rs lines 27-34. -/
structure ProjectConfig where
  version : Nat
  project_id : String
  project_trust_root : String
deriving DecidableEq, Repr

/-- Modelled from the spec: a reviewed-file record produced by
`Staging::to_review_files` (src/repo/staging.rs is not under src/). -/
structure FileReview where
  path : String
deriving DecidableEq, Repr

/-- The unsigned review proof content assembled by `review::ReviewBuilder`
in `Repo::commit` (src/repo/mod.rs lines 230-243).  `from` is a Lean
keyword, hence the field name `from_`. -/
structure Review where
  from_ : String
  from_url : String
  from_type : String
  revision : String
  revision_type : String
  project_id : String
  comment : Option String
  thoroughness : Level
  understanding : Level
  trust : Level
  files : List FileReview
deriving DecidableEq, Repr

/-- An unlocked identity (`local::Local::read_unlocked_id`; the `id` crate
is not under src/): only the accessors used by `commit` are modelled. -/
structure CrevId where
  pubKeyB64 : String
  url : String
  typeStr : String
deriving DecidableEq, Repr

/-! ### Git revision resolution -/

/-- One entry of `git2::Repository::statuses`: its path, whether the file
is untracked, and whether its status is `git2::Status::CURRENT`. -/
structure StatusEntry where
  path : String
  untracked : Bool
  current : Bool
deriving DecidableEq, Repr

/-- The git-facing state of the project: existence of `.git`, the outcomes
of the git2 calls made by `try_read_git_revision` (repository open, the
repository-state cleanliness check, the status listing, and the resolved
HEAD object id, `none` when HEAD's target is not an oid). -/
structure GitEnv where
  dotGitExists : Bool
  openResult : Except Err Unit
  stateClean : Bool
  statuses : Except Err (List StatusEntry)
  headOid : Except Err (Option String)

/-- git2 semantics of `statuses` under `StatusOptions`: with
`include_untracked(false)` (the only configuration the source uses,
line 184) untracked entries are omitted from the listing. -/
def gitListedEntries (includeUntracked : Bool) (l : List StatusEntry) :
    List StatusEntry :=
  if includeUntracked then l else l.filter (fun e => !e.untracked)

/-- Function `Repo::try_read_git_revision` (src/repo/mod.rs lines 173-208).
Returns the result together with the `eprintln!` stderr lines: the
`.iter().any(...)` closure prints the path of each non-current entry it
examines and short-circuits at the first one, so exactly the first
non-current listed entry's path is printed. -/
def try_read_git_revision (g : GitEnv) : Except Err (Option RevisionInfo) × List String :=
  if !g.dotGitExists then (.ok none, [])
  else
    match g.openResult with
    | .error e => (.error e, [])
    | .ok _ =>
      if !g.stateClean then (.error "Git repository is not in a clean state", [])
      else
        match g.statuses with
        | .error e => (.error e, [])
        | .ok entries =>
          match (gitListedEntries false entries).find? (fun e => !e.current) with
          | some e => (.error "Git repository is not in a clean state", [e.path])
          | none =>
            match g.headOid with
            | .error e => (.error e, [])
            | .ok none => (.error "HEAD target does not resolve to oid", [])
            | .ok (some rev) => (.ok (some { type_ := "git", revision := rev }), [])

/-- Function `Repo::read_revision` (src/repo/mod.rs lines 210-215). -/
def read_revision (g : GitEnv) : Except Err RevisionInfo × List String :=
  match try_read_git_revision g with
  | (.ok (some info), errs) => (.ok info, errs)
  | (.ok none, errs) => (.error "Couldn't identify revision info", errs)
  | (.error e, errs) => (.error e, errs)

/-! ### Staging -/

/-- Modelled from the spec: the `staging::Staging` entry set
(src/repo/staging.rs is not under src/); a persistent set of staged
project-relative paths. -/
structure Staging where
  entries : List String
deriving DecidableEq, Repr

/-- Predicate `Staging::is_empty`, modelled from the spec. -/
def Staging.is_empty (s : Staging) : Bool := s.entries.isEmpty

/-- Byte-wise lexicographic comparison on character lists. -/
def leChars : List Char → List Char → Bool
  | [], _ => true
  | _ :: _, [] => false
  | a :: as, b :: bs =>
    if a.toNat < b.toNat then true
    else if b.toNat < a.toNat then false
    else leChars as bs

/-- Lexicographic comparison on paths. -/
def strLe (a b : String) : Bool := leChars a.data b.data

/-- Insert a path into a lexicographically sorted list of paths. -/
def insertSorted (a : String) : List String → List String
  | [] => [a]
  | b :: rest => if strLe a b then a :: b :: rest else b :: insertSorted a rest

/-- Lexicographic insertion sort on paths. -/
def sortStrings : List String → List String
  | [] => []
  | a :: rest => insertSorted a (sortStrings rest)

/-- Modelled from the spec: `Staging::to_review_files`
(src/repo/staging.rs is not under src/) returns the staged paths as
review-file records in deterministic lexicographic order. -/
def Staging.to_review_files (s : Staging) : List FileReview :=
  (sortStrings s.entries).map FileReview.mk

/-! ### Proof store -/

/-- Modelled from the spec: `proof::Content::rel_project_path` for review
content (the `proof` and `review` modules are not under src/): the
content's declared project-relative path, a pure function of the content,
modelled as its declared project id. -/
def Review.rel_project_path (r : Review) : List String := [r.project_id]

/-- Function `Repo::get_proof_rel_store_path` (src/repo/mod.rs lines 155-157):
`PathBuf::from("proofs").join(content.rel_project_path())`, applied to the
result of the content's `rel_project_path` method. -/
def get_proof_rel_store_path (content_rel_project_path : List String) : List String :=
  "proofs" :: content_rel_project_path

/-- A filesystem path relative to the project root, as components. -/
abbrev FsPath := List String

/-- An explicit filesystem: file contents and the set of directories. -/
structure FS where
  files : List (FsPath × String)
  dirs : List FsPath
deriving DecidableEq, Repr

/-- Read a file's bytes. -/
def FS.read (fs : FS) (p : FsPath) : Option String := fs.files.lookup p

/-- Overwrite/create a file's full contents. -/
def FS.writeFile (fs : FS) (p : FsPath) (s : String) : FS :=
  { fs with files := (p, s) :: fs.files.filter (fun kv => !(kv.1 == p)) }

/-- The file-handle operations `append_proof_at` performs, in order. -/
inductive FileOp where
  | createDirAll (dir : FsPath)
  | openAppendCreate (file : FsPath)
  | writeAll (bytes : String)
  | flush
deriving DecidableEq, Repr

/-- Constant `CREV_DOT_NAME` (src/repo/mod.rs line 36). -/
def CREV_DOT_NAME : String := ".crev"

/-- Function `Repo::append_proof_at` (src/repo/mod.rs lines 135-153): the target is
`.crev/<rel_store_path>`; parent directories are created, the file is
opened in append-create mode (existing bytes kept, file created when
absent), the full serialized proof is written and the handle flushed. -/
def append_proof_at (fs : FS) (serialized_proof : String) (rel_store_path : FsPath) :
    FS × List FileOp :=
  let path : FsPath := CREV_DOT_NAME :: rel_store_path
  let parent := path.dropLast
  let fs1 : FS := { fs with dirs := parent :: fs.dirs }
  let old := (fs1.read path).getD ""
  let fs2 := fs1.writeFile path (old ++ serialized_proof)
  (fs2, [.createDirAll parent, .openAppendCreate path, .writeAll serialized_proof, .flush])

/-! ### init -/

/-- Models `serde_yaml::to_writer` for `ProjectConfig` (serde_yaml is an
external crate): a deterministic rendering of the three fields. -/
def project_config_yaml (c : ProjectConfig) : String :=
  "version: " ++ toString c.version ++
  "\nproject-id: " ++ c.project_id ++
  "\nproject-trust-root: " ++ c.project_trust_root ++ "\n"

/-- Path `Repo::project_config_path` (src/repo/mod.rs lines 112-114), relative
to the project root. -/
def project_config_path : FsPath := [CREV_DOT_NAME, "config.yaml"]

/-- Function `Repo::init` (src/repo/mod.rs lines 68-91).  `random_id` is the value
returned by `util::random_id_str()` (the `util` module is not under src/;
per the spec, an opaque random identifier); path canonicalization is
modelled as succeeding.  `create_dir_all` runs before the existence check,
then init bails if `.crev/config.yaml` exists, else writes the fresh
config via `util::store_to_file_with`. -/
def Repo.init (fs : FS) (id_str : String) (random_id : String) :
    Except Err Unit × FS :=
  let fs1 : FS := { fs with dirs := [CREV_DOT_NAME] :: fs.dirs }
  match fs1.read project_config_path with
  | some _ => (.error "`.crev/config.yaml` already exists", fs1)
  | none =>
    (.ok (),
     fs1.writeFile project_config_path
       (project_config_yaml
         { version := 0, project_id := random_id, project_trust_root := id_str }))

/-! ### verify -/

/-- Handle of the `local::Local` store (the `local` crate is not under src/);
only its existence matters here. -/
abbrev LocalStore := Unit

/-- The user config returned by `Local::load_user_config`. -/
structure UserConfig where
  current_id : String
deriving DecidableEq, Repr

/-- The `trust_graph::TrustGraph` placeholder unit struct referenced by
`verify` (src/repo/mod.rs line 163). -/
structure TrustGraph where
deriving DecidableEq, Repr

/-- Outcome of `Repo::verify`: a normal return (`ok` is never produced),
a propagated error, or the `unimplemented!()` panic. -/
inductive VerifyOutcome where
  | ok
  | err (e : Err)
  | panicked
deriving DecidableEq, Repr

/-- Function `Repo::verify` (src/repo/mod.rs lines 159-171): `Local::auto_open()?`
and `load_user_config()?` propagate failures; once both succeed the
trust-graph placeholder is referenced and `unimplemented!()` panics
unconditionally. -/
def Repo.verify (auto_open : Except Err LocalStore)
    (load_user_config : LocalStore → Except Err UserConfig) : VerifyOutcome :=
  match auto_open with
  | .error e => .err e
  | .ok localStore =>
    match load_user_config localStore with
    | .error e => .err e
    | .ok user_config =>
      let _cur_id := user_config.current_id
      let _graph : TrustGraph := {}
      .panicked

/-! ### commit -/

/-- Outcomes of the external collaborator calls `Repo::commit` makes, in
source order (src/repo/mod.rs lines 217-262): staging open, passphrase
prompt, the first `Local::auto_open`, identity unlock, project-config
load, the git state, `Staging::enforce_current`, the interactive edit,
signing, the disk outcome of `append_proof_at`, the second
`Local::auto_open` (line 257), and `Staging::wipe`.
(`local.append_proof(&proof, &review)` on line 258 has its result
discarded by the source, so it needs no outcome field.) -/
structure CommitEnv where
  staging_open : Except Err Staging
  read_passphrase : Except Err String
  local_auto_open : Except Err LocalStore
  read_unlocked_id : Except Err CrevId
  load_project_config : Except Err ProjectConfig
  git : GitEnv
  enforce_current : Except Err Unit
  edit_proof_content : Review → Except Err Review
  sign : Review → Except Err String
  append_result : Except Err Unit
  local_auto_open2 : Except Err LocalStore
  wipe : Except Err Unit

/-- Observable steps of a `commit` run, recorded in execution order.
`storeAppended` is recorded only when `append_proof_at` succeeded;
`stagingWiped` is recorded when `Staging::wipe` is invoked. -/
inductive Event where
  | passphraseRead
  | idUnlocked
  | configLoaded (c : ProjectConfig)
  | revisionRead (r : RevisionInfo)
  | currentEnforced
  | reviewBuilt (r : Review)
  | reviewEdited (r : Review)
  | proofSigned (serialized : String)
  | proofPrinted (serialized : String)
  | storeAppended (rel_store_path : FsPath)
  | localStoreAppended
  | stagingWiped
deriving DecidableEq, Repr

/-- Function `Repo::commit` (src/repo/mod.rs lines 217-262), translated step by
step: empty-staging check, passphrase, `Local::auto_open`, identity
unlock, config load, revision resolution, `enforce_current`, review
construction (the `ReviewBuilder` succeeds since every field is set),
interactive edit, signing, `println!` of the proof, `append_proof_at`
into the `.crev` store, the second `Local::auto_open`,
`local.append_proof` (result discarded), and `Staging::wipe`. -/
def Repo.commit (env : CommitEnv) (fs : FS) : Except Err Unit × List Event × FS :=
  match env.staging_open with
  | .error e => (.error e, [], fs)
  | .ok st =>
    if st.is_empty then (.error "No reviews to commit. Use `add` first.", [], fs)
    else
      match env.read_passphrase with
      | .error e => (.error e, [], fs)
      | .ok _passphrase =>
        match env.local_auto_open with
        | .error e => (.error e, [.passphraseRead], fs)
        | .ok _local =>
          match env.read_unlocked_id with
          | .error e => (.error e, [.passphraseRead], fs)
          | .ok id =>
            match env.load_project_config with
            | .error e => (.error e, [.passphraseRead, .idUnlocked], fs)
            | .ok project_config =>
              match (read_revision env.git).1 with
              | .error e =>
                (.error e,
                 [.passphraseRead, .idUnlocked, .configLoaded project_config], fs)
              | .ok revision =>
                match env.enforce_current with
                | .error e =>
                  (.error e,
                   [.passphraseRead, .idUnlocked, .configLoaded project_config,
                    .revisionRead revision], fs)
                | .ok _ =>
                  let files := st.to_review_files
                  let review : Review :=
                    { from_ := id.pubKeyB64
                      from_url := id.url
                      from_type := id.typeStr
                      revision := revision.revision
                      revision_type := revision.type_
                      project_id := project_config.project_id
                      comment := some ""
                      thoroughness := .Low
                      understanding := .Low
                      trust := .Low
                      files := files }
                  let t0 : List Event :=
                    [.passphraseRead, .idUnlocked, .configLoaded project_config,
                     .revisionRead revision, .currentEnforced, .reviewBuilt review]
                  match env.edit_proof_content review with
                  | .error e => (.error e, t0, fs)
                  | .ok review2 =>
                    match env.sign review2 with
                    | .error e => (.error e, t0 ++ [.reviewEdited review2], fs)
                    | .ok proof =>
                      let rel_store_path :=
                        get_proof_rel_store_path review2.rel_project_path
                      let t1 := t0 ++
                        [.reviewEdited review2, .proofSigned proof, .proofPrinted proof]
                      match env.append_result with
                      | .error e => (.error e, t1, fs)
                      | .ok _ =>
                        let fs' := (append_proof_at fs proof rel_store_path).1
                        let t2 := t1 ++ [.storeAppended rel_store_path]
                        match env.local_auto_open2 with
                        | .error e => (.error e, t2, fs')
                        | .ok _local2 =>
                          let t3 := t2 ++ [.localStoreAppended]
                          match env.wipe with
                          | .error e => (.error e, t3 ++ [.stagingWiped], fs')
                          | .ok _ => (.ok (), t3 ++ [.stagingWiped], fs')

/-! ### Concrete environments used by witnesses and counterexamples -/

/-- A git state with `.git` present, a clean repository and resolvable HEAD. -/
def gitEnvOk : GitEnv :=
  { dotGitExists := true
    openResult := .ok ()
    stateClean := true
    statuses := .ok []
    headOid := .ok (some "deadbeef") }

/-- A fully successful commit environment. -/
def envOk : CommitEnv :=
  { staging_open := .ok ⟨["src/b.rs", "src/a.rs"]⟩
    read_passphrase := .ok "hunter2"
    local_auto_open := .ok ()
    read_unlocked_id := .ok ⟨"PUBKEY", "https://example.com", "crev"⟩
    load_project_config := .ok ⟨0, "projX", "rootid"⟩
    git := gitEnvOk
    enforce_current := .ok ()
    edit_proof_content := fun r => .ok r
    sign := fun _ => .ok "SIGNEDPROOF"
    append_result := .ok ()
    local_auto_open2 := .ok ()
    wipe := .ok () }

/-- An empty filesystem. -/
def fs0 : FS := ⟨[], []⟩

/-- The unsigned review `commit` builds in the environment `envOk`. -/
def reviewOk : Review :=
  { from_ := "PUBKEY"
    from_url := "https://example.com"
    from_type := "crev"
    revision := "deadbeef"
    revision_type := "git"
    project_id := "projX"
    comment := some ""
    thoroughness := .Low
    understanding := .Low
    trust := .Low
    files := [⟨"src/a.rs"⟩, ⟨"src/b.rs"⟩] }

/-- Environment `envOk`, except that the disk append into the `.crev` store fails. -/
def envAppendErr : CommitEnv := { envOk with append_result := .error "disk full" }

/-- Environment `envOk`, except that the second `Local::auto_open` (the re-open after
the store append, src/repo/mod.rs line 257) fails. -/
def envLocal2Err : CommitEnv := { envOk with local_auto_open2 := .error "io" }

/-- Environment `envOk`, except that `enforce_current` reports a stale staged entry. -/
def envStale : CommitEnv :=
  { envOk with enforce_current := .error "file changed: src/a.rs" }

/-- Environment `envOk`, except that the staging area is empty. -/
def envEmpty : CommitEnv := { envOk with staging_open := .ok ⟨[]⟩ }

/-- Environment `envOk`, except that unlocking the identity fails. -/
def envUnlockErr : CommitEnv :=
  { envOk with read_unlocked_id := .error "incorrect passphrase" }

/-- A filesystem that already has a `.crev/config.yaml`. -/
def fsWithConfig : FS := ⟨[([".crev", "config.yaml"], "old-config")], [[".crev"]]⟩

/-- Scan of a commit trace: `stagingWiped` may occur only strictly after
some successful `storeAppended`. -/
def wipeOnlyAfterAppend (seenAppend : Bool) : List Event → Bool
  | [] => true
  | .storeAppended _ :: rest => wipeOnlyAfterAppend true rest
  | .stagingWiped :: rest => seenAppend && wipeOnlyAfterAppend seenAppend rest
  | _ :: rest => wipeOnlyAfterAppend seenAppend rest

/-- The git state of a project directory with no `.git`. -/
def gitEnvNoGit : GitEnv := { gitEnvOk with dotGitExists := false }

/-- Environment `envOk`, except that the project has no `.git` directory. -/
def envNoGit : CommitEnv := { envOk with git := gitEnvNoGit }

/-- A status listing with a dirty untracked entry and a dirty tracked
entry: only the tracked one matters for the clean check. -/
def gitDirty : GitEnv :=
  { gitEnvOk with
      statuses := .ok [⟨"notes.txt", true, false⟩, ⟨"src/lib.rs", false, false⟩] }

/-- Environment `envOk`, except that the working tree has a modified tracked file. -/
def envDirty : CommitEnv := { envOk with git := gitDirty }

/-! ### C5 -/

/-- Claim C5: commit on an empty staging area fails with the specific
"nothing to commit" error, records no observable step, and leaves the
filesystem exactly as it was. -/
theorem commit_empty_staging_fails (env : CommitEnv) (fs : FS) (st : Staging)
    (hso : env.staging_open = .ok st) (hemp : st.entries = []) :
    Repo.commit env fs = (.error "No reviews to commit. Use `add` first.", [], fs) := by
  obtain ⟨so, rp, lao, rui, lpc, git, ec, ed, sg, ap, lao2, wp⟩ := env
  simp only at hso
  subst hso
  simp [Repo.commit, Staging.is_empty, hemp]

/-- Witness for C5 at the concrete environment `envEmpty`. -/
theorem commit_empty_staging_fails_witness :
    Repo.commit envEmpty fs0 = (.error "No reviews to commit. Use `add` first.", [], fs0) :=
  commit_empty_staging_fails envEmpty fs0 ⟨[]⟩ rfl rfl

/-! ### C7 -/

/-- Claim C7: `init` fails when `.crev/config.yaml` already exists and
leaves the file contents untouched (only the `.crev` directory creation
has happened); when the config file is absent, `init` succeeds and writes
a fresh `ProjectConfig` with version 0, the fresh random project id and
the given trust root. -/
theorem init_refuses_existing_config (fs : FS) (id_str random_id : String) :
    ((fs.read project_config_path).isSome →
      Repo.init fs id_str random_id =
        (.error "`.crev/config.yaml` already exists",
         { fs with dirs := [CREV_DOT_NAME] :: fs.dirs })) ∧
    (fs.read project_config_path = none →
      (Repo.init fs id_str random_id).1 = .ok () ∧
      (Repo.init fs id_str random_id).2.read project_config_path =
        some (project_config_yaml
          { version := 0, project_id := random_id, project_trust_root := id_str })) := by
  constructor
  · intro h
    obtain ⟨s, hs⟩ := Option.isSome_iff_exists.mp h
    simp only [FS.read] at hs
    simp [Repo.init, FS.read, hs]
  · intro h
    simp only [FS.read] at h
    simp [Repo.init, FS.read, FS.writeFile, h, List.lookup]

/-- Witness for C7: on `fsWithConfig` init fails and the old config
survives; on the empty filesystem init writes the fresh config. -/
theorem init_refuses_existing_config_witness :
    Repo.init fsWithConfig "trustroot" "randid" =
      (.error "`.crev/config.yaml` already exists",
       { fsWithConfig with dirs := [CREV_DOT_NAME] :: fsWithConfig.dirs }) ∧
    (Repo.init fs0 "trustroot" "randid").2.read project_config_path =
      some (project_config_yaml
        { version := 0, project_id := "randid", project_trust_root := "trustroot" }) :=
  ⟨(init_refuses_existing_config fsWithConfig "trustroot" "randid").1 (by decide),
   ((init_refuses_existing_config fs0 "trustroot" "randid").2 rfl).2⟩

/-! ### C8 -/

/-- Counterexample to claim C8 as stated: `verify` does not panic on
every invocation — when `Local::auto_open` fails, the `?` operator makes
`verify` return that error instead of reaching `unimplemented!()`. -/
theorem verify_panics_unconditionally_counterexample :
    Repo.verify (.error "no local store") (fun _ => .ok ⟨"id"⟩) ≠ .panicked ∧
    Repo.verify (.error "no local store") (fun _ => .ok ⟨"id"⟩) =
      .err "no local store" := by
  constructor <;> simp [Repo.verify]

/-- Claim C8 (amended): `verify` never returns a successful result; when
its collaborator calls succeed it reaches the trust-graph placeholder and
panics unconditionally, and otherwise it propagates the collaborator
error. -/
theorem verify_never_returns_ok (auto_open : Except Err LocalStore)
    (load_user_config : LocalStore → Except Err UserConfig) :
    Repo.verify auto_open load_user_config ≠ .ok ∧
    (∀ l, auto_open = .ok l → ∀ c, load_user_config l = .ok c →
      Repo.verify auto_open load_user_config = .panicked) ∧
    (∀ e, auto_open = .error e →
      Repo.verify auto_open load_user_config = .err e) := by
  refine ⟨?_, ?_, ?_⟩
  · cases h : auto_open with
    | error e => simp [Repo.verify]
    | ok l =>
      cases hc : load_user_config l with
      | error e => simp [Repo.verify, hc]
      | ok c => simp [Repo.verify, hc]
  · intro l hl c hc
    simp [Repo.verify, hl, hc]
  · intro e he
    simp [Repo.verify, he]

/-- Witness for C8 (amended) at concrete collaborator outcomes. -/
theorem verify_never_returns_ok_witness :
    Repo.verify (.ok ()) (fun _ => .ok ⟨"me"⟩) = .panicked ∧
    Repo.verify (.error "no user config") (fun _ => .ok ⟨"me"⟩) =
      .err "no user config" :=
  ⟨(verify_never_returns_ok (.ok ()) (fun _ => .ok ⟨"me"⟩)).2.1 () rfl ⟨"me"⟩ rfl,
   (verify_never_returns_ok (.error "no user config") (fun _ => .ok ⟨"me"⟩)).2.2
     "no user config" rfl⟩

/-! ### C6 -/

/-- Removing association-list entries for a different key does not change
a lookup. -/
theorem lookup_filter_ne {p t : FsPath} (l : List (FsPath × String)) (h : ¬ p = t) :
    (l.filter (fun kv => !(kv.1 == t))).lookup p = l.lookup p := by
  induction l with
  | nil => rfl
  | cons kv rest ih =>
    obtain ⟨k, v⟩ := kv
    by_cases hk : k = t
    · subst hk
      have hpk : (p == k) = false := beq_eq_false_iff_ne.mpr h
      simp [List.lookup, hpk, ih]
    · have hkt : (k == t) = false := beq_eq_false_iff_ne.mpr hk
      cases hpk : p == k <;> simp [List.lookup, hkt, hpk, ih]

/-- Claim C6: the storage path of a signed proof is the deterministic
function `proofs/<content's project-relative path>` of the content; the
append target is `.crev/<that path>`, parent directories are created, the
target is opened append-create so previously stored bytes stay unchanged
as a prefix, the full serialized proof is written, every other file is
untouched, and the operation sequence ends with a flush. -/
theorem proof_store_path_and_append_semantics (fs : FS)
    (serialized_proof : String) (relp : FsPath) (p : FsPath) :
    get_proof_rel_store_path relp = "proofs" :: relp ∧
    (append_proof_at fs serialized_proof (get_proof_rel_store_path relp)).1.read p =
      (if p = CREV_DOT_NAME :: "proofs" :: relp
       then some (((fs.read (CREV_DOT_NAME :: "proofs" :: relp)).getD "") ++ serialized_proof)
       else fs.read p) ∧
    (CREV_DOT_NAME :: "proofs" :: relp).dropLast ∈
      (append_proof_at fs serialized_proof (get_proof_rel_store_path relp)).1.dirs ∧
    (append_proof_at fs serialized_proof (get_proof_rel_store_path relp)).2 =
      [.createDirAll ((CREV_DOT_NAME :: "proofs" :: relp).dropLast),
       .openAppendCreate (CREV_DOT_NAME :: "proofs" :: relp),
       .writeAll serialized_proof,
       .flush] := by
  refine ⟨rfl, ?_, ?_, rfl⟩
  · by_cases hp : p = CREV_DOT_NAME :: "proofs" :: relp
    · subst hp
      simp [append_proof_at, get_proof_rel_store_path, FS.read, FS.writeFile, List.lookup]
    · have hpk : (p == CREV_DOT_NAME :: "proofs" :: relp) = false :=
        beq_eq_false_iff_ne.mpr hp
      simp [append_proof_at, get_proof_rel_store_path, FS.read, FS.writeFile,
        List.lookup, hp, hpk, lookup_filter_ne _ hp]
  · simp [append_proof_at, get_proof_rel_store_path, FS.writeFile]

/-! ### C2 -/

/-- Claim C2: whenever `enforce_current` reports a stale staged entry,
`commit` returns an error, no review is built, edited, signed or printed,
nothing is appended to the proof store, the staging area is not wiped,
and the filesystem is unchanged. -/
theorem commit_enforce_current_gate (env : CommitEnv) (fs : FS) (e : Err)
    (h : env.enforce_current = .error e) :
    (Repo.commit env fs).1 ≠ .ok () ∧
    (∀ r, Event.reviewBuilt r ∉ (Repo.commit env fs).2.1) ∧
    (∀ r, Event.reviewEdited r ∉ (Repo.commit env fs).2.1) ∧
    (∀ s, Event.proofSigned s ∉ (Repo.commit env fs).2.1) ∧
    (∀ s, Event.proofPrinted s ∉ (Repo.commit env fs).2.1) ∧
    (∀ p, Event.storeAppended p ∉ (Repo.commit env fs).2.1) ∧
    Event.stagingWiped ∉ (Repo.commit env fs).2.1 ∧
    (Repo.commit env fs).2.2 = fs := by
  obtain ⟨so, rp, lao, rui, lpc, git, ec, ed, sg, ap, lao2, wp⟩ := env
  simp only at h
  subst h
  simp only [Repo.commit]
  repeat' split <;> (try simp_all)

/-- Witness for C2 at the concrete environment `envStale`, with the
universally quantified events instantiated at concrete values. -/
theorem commit_enforce_current_gate_witness :
    (Repo.commit envStale fs0).1 ≠ .ok () ∧
    Event.reviewBuilt reviewOk ∉ (Repo.commit envStale fs0).2.1 ∧
    Event.proofSigned "SIGNEDPROOF" ∉ (Repo.commit envStale fs0).2.1 ∧
    Event.storeAppended ["proofs", "projX"] ∉ (Repo.commit envStale fs0).2.1 ∧
    Event.stagingWiped ∉ (Repo.commit envStale fs0).2.1 ∧
    (Repo.commit envStale fs0).2.2 = fs0 := by
  have h := commit_enforce_current_gate envStale fs0 "file changed: src/a.rs" rfl
  exact ⟨h.1, h.2.1 reviewOk, h.2.2.2.1 "SIGNEDPROOF", h.2.2.2.2.2.1 ["proofs", "projX"],
    h.2.2.2.2.2.2.1, h.2.2.2.2.2.2.2⟩

/-! ### C10 -/

/-- Claim C10: every unsigned review that `commit` builds (before the
interactive edit) has thoroughness, understanding and trust set to `Low`
and an empty comment; `commit` takes no level parameters, so this holds
for every environment. -/
theorem commit_builds_default_low_review (env : CommitEnv) (fs : FS) (r : Review)
    (h : Event.reviewBuilt r ∈ (Repo.commit env fs).2.1) :
    r.thoroughness = .Low ∧ r.understanding = .Low ∧ r.trust = .Low ∧
    r.comment = some "" := by
  obtain ⟨so, rp, lao, rui, lpc, git, ec, ed, sg, ap, lao2, wp⟩ := env
  simp only [Repo.commit] at h
  repeat' split at h <;> (try simp_all)

/-- Witness for C10: in the concrete environment `envOk` the built review
is `reviewOk`, whose levels are all `Low` and whose comment is empty. -/
theorem commit_builds_default_low_review_witness :
    Event.reviewBuilt reviewOk ∈ (Repo.commit envOk fs0).2.1 ∧
    reviewOk.thoroughness = .Low ∧ reviewOk.understanding = .Low ∧
    reviewOk.trust = .Low ∧ reviewOk.comment = some "" := by
  have h := commit_builds_default_low_review envOk fs0 reviewOk (by decide)
  exact ⟨by decide, h.1, h.2.1, h.2.2.1, h.2.2.2⟩

/-! ### C1 -/

/-- A trace accepted by the scan that contains a wipe contains a prior
successful append (or the scan started with one already seen). -/
theorem wipe_scan_mem (t : List Event) : ∀ b : Bool,
    wipeOnlyAfterAppend b t = true → Event.stagingWiped ∈ t →
    b = true ∨ ∃ p, Event.storeAppended p ∈ t := by
  induction t with
  | nil => intro b _ hm; cases hm
  | cons e rest ih =>
    intro b h hm
    cases e with
    | storeAppended p => exact Or.inr ⟨p, List.mem_cons_self _ _⟩
    | stagingWiped =>
      have hb : b = true := by
        by_contra hb
        have : b = false := by cases b <;> simp_all
        simp [wipeOnlyAfterAppend, this] at h
      exact Or.inl hb
    | passphraseRead =>
      rcases List.mem_cons.mp hm with h1 | h1
      · cases h1
      · rcases ih b (by simpa [wipeOnlyAfterAppend] using h) h1 with hb | ⟨p, hp⟩
        · exact Or.inl hb
        · exact Or.inr ⟨p, List.mem_cons_of_mem _ hp⟩
    | idUnlocked =>
      rcases List.mem_cons.mp hm with h1 | h1
      · cases h1
      · rcases ih b (by simpa [wipeOnlyAfterAppend] using h) h1 with hb | ⟨p, hp⟩
        · exact Or.inl hb
        · exact Or.inr ⟨p, List.mem_cons_of_mem _ hp⟩
    | configLoaded c =>
      rcases List.mem_cons.mp hm with h1 | h1
      · cases h1
      · rcases ih b (by simpa [wipeOnlyAfterAppend] using h) h1 with hb | ⟨p, hp⟩
        · exact Or.inl hb
        · exact Or.inr ⟨p, List.mem_cons_of_mem _ hp⟩
    | revisionRead r =>
      rcases List.mem_cons.mp hm with h1 | h1
      · cases h1
      · rcases ih b (by simpa [wipeOnlyAfterAppend] using h) h1 with hb | ⟨p, hp⟩
        · exact Or.inl hb
        · exact Or.inr ⟨p, List.mem_cons_of_mem _ hp⟩
    | currentEnforced =>
      rcases List.mem_cons.mp hm with h1 | h1
      · cases h1
      · rcases ih b (by simpa [wipeOnlyAfterAppend] using h) h1 with hb | ⟨p, hp⟩
        · exact Or.inl hb
        · exact Or.inr ⟨p, List.mem_cons_of_mem _ hp⟩
    | reviewBuilt r =>
      rcases List.mem_cons.mp hm with h1 | h1
      · cases h1
      · rcases ih b (by simpa [wipeOnlyAfterAppend] using h) h1 with hb | ⟨p, hp⟩
        · exact Or.inl hb
        · exact Or.inr ⟨p, List.mem_cons_of_mem _ hp⟩
    | reviewEdited r =>
      rcases List.mem_cons.mp hm with h1 | h1
      · cases h1
      · rcases ih b (by simpa [wipeOnlyAfterAppend] using h) h1 with hb | ⟨p, hp⟩
        · exact Or.inl hb
        · exact Or.inr ⟨p, List.mem_cons_of_mem _ hp⟩
    | proofSigned s =>
      rcases List.mem_cons.mp hm with h1 | h1
      · cases h1
      · rcases ih b (by simpa [wipeOnlyAfterAppend] using h) h1 with hb | ⟨p, hp⟩
        · exact Or.inl hb
        · exact Or.inr ⟨p, List.mem_cons_of_mem _ hp⟩
    | proofPrinted s =>
      rcases List.mem_cons.mp hm with h1 | h1
      · cases h1
      · rcases ih b (by simpa [wipeOnlyAfterAppend] using h) h1 with hb | ⟨p, hp⟩
        · exact Or.inl hb
        · exact Or.inr ⟨p, List.mem_cons_of_mem _ hp⟩
    | localStoreAppended =>
      rcases List.mem_cons.mp hm with h1 | h1
      · cases h1
      · rcases ih b (by simpa [wipeOnlyAfterAppend] using h) h1 with hb | ⟨p, hp⟩
        · exact Or.inl hb
        · exact Or.inr ⟨p, List.mem_cons_of_mem _ hp⟩

/-- Claim C1 (amended): `Staging::wipe` is invoked only strictly after a
successful append into the `.crev` proof store, and if that append fails,
`commit` returns an error, the wipe is never invoked and the store is
unchanged.  (The "wiped if appended" direction of the original iff fails:
see the counterexample, where the post-append `Local::auto_open` error
aborts `commit` between the append and the wipe.) -/
theorem commit_wipes_staging_only_after_store_append (env : CommitEnv) (fs : FS) :
    wipeOnlyAfterAppend false (Repo.commit env fs).2.1 = true ∧
    (Event.stagingWiped ∈ (Repo.commit env fs).2.1 →
      ∃ p, Event.storeAppended p ∈ (Repo.commit env fs).2.1) ∧
    (∀ e, env.append_result = .error e →
      (Repo.commit env fs).1 ≠ .ok () ∧
      Event.stagingWiped ∉ (Repo.commit env fs).2.1 ∧
      (Repo.commit env fs).2.2 = fs) := by
  have hscan : wipeOnlyAfterAppend false (Repo.commit env fs).2.1 = true := by
    obtain ⟨so, rp, lao, rui, lpc, git, ec, ed, sg, ap, lao2, wp⟩ := env
    simp only [Repo.commit]
    repeat' split <;> (try simp [wipeOnlyAfterAppend])
  refine ⟨hscan, ?_, ?_⟩
  · intro hm
    rcases wipe_scan_mem _ false hscan hm with hb | hp
    · cases hb
    · exact hp
  · intro e he
    obtain ⟨so, rp, lao, rui, lpc, git, ec, ed, sg, ap, lao2, wp⟩ := env
    simp only at he
    subst he
    simp only [Repo.commit]
    repeat' split <;> (try simp_all)

/-- Counterexample to claim C1 as stated: when the `Local::auto_open`
re-open after the append (src/repo/mod.rs line 257) fails, the proof has
been durably appended to the `.crev` store but the staging area is never
wiped, so "wiped if and only if appended" is false. -/
theorem commit_wipe_iff_append_counterexample :
    Event.storeAppended ["proofs", "projX"] ∈ (Repo.commit envLocal2Err fs0).2.1 ∧
    Event.stagingWiped ∉ (Repo.commit envLocal2Err fs0).2.1 ∧
    (Repo.commit envLocal2Err fs0).1 = .error "io" := by
  refine ⟨by decide, by decide, rfl⟩

/-- Witness for C1 (amended): the scan accepts the fully successful run,
and with a failing append the commit errors, never wipes, and leaves the
filesystem unchanged. -/
theorem commit_wipes_staging_only_after_store_append_witness :
    wipeOnlyAfterAppend false (Repo.commit envOk fs0).2.1 = true ∧
    (Repo.commit envAppendErr fs0).1 ≠ .ok () ∧
    Event.stagingWiped ∉ (Repo.commit envAppendErr fs0).2.1 ∧
    (Repo.commit envAppendErr fs0).2.2 = fs0 := by
  have h1 := (commit_wipes_staging_only_after_store_append envOk fs0).1
  have h2 := (commit_wipes_staging_only_after_store_append envAppendErr fs0).2.2
    "disk full" rfl
  exact ⟨h1, h2.1, h2.2.1, h2.2.2⟩

/-! ### C4 -/

/-- Claim C4: without a `.git` control directory, `try_read_git_revision`
returns no revision info, `read_revision` fails with the no-revision-info
error, and `commit` fails without building, signing or appending any
proof — there is no fallback to an unbound proof. -/
theorem commit_requires_revision_info (env : CommitEnv) (fs : FS)
    (h : env.git.dotGitExists = false) :
    try_read_git_revision env.git = (.ok none, []) ∧
    read_revision env.git = (.error "Couldn't identify revision info", []) ∧
    (Repo.commit env fs).1 ≠ .ok () ∧
    (∀ r, Event.reviewBuilt r ∉ (Repo.commit env fs).2.1) ∧
    (∀ s, Event.proofSigned s ∉ (Repo.commit env fs).2.1) ∧
    (∀ p, Event.storeAppended p ∉ (Repo.commit env fs).2.1) ∧
    Event.stagingWiped ∉ (Repo.commit env fs).2.1 ∧
    (Repo.commit env fs).2.2 = fs := by
  have htry : try_read_git_revision env.git = (.ok none, []) := by
    simp [try_read_git_revision, h]
  have hrev : read_revision env.git = (.error "Couldn't identify revision info", []) := by
    simp [read_revision, htry]
  refine ⟨htry, hrev, ?_⟩
  obtain ⟨so, rp, lao, rui, lpc, git, ec, ed, sg, ap, lao2, wp⟩ := env
  simp only at hrev
  simp only [Repo.commit]
  repeat' split <;> (try simp_all)

/-- Witness for C4 at the concrete environment `envNoGit`. -/
theorem commit_requires_revision_info_witness :
    read_revision envNoGit.git = (.error "Couldn't identify revision info", []) ∧
    (Repo.commit envNoGit fs0).1 ≠ .ok () ∧
    Event.reviewBuilt reviewOk ∉ (Repo.commit envNoGit fs0).2.1 ∧
    Event.stagingWiped ∉ (Repo.commit envNoGit fs0).2.1 ∧
    (Repo.commit envNoGit fs0).2.2 = fs0 := by
  have h := commit_requires_revision_info envNoGit fs0 rfl
  exact ⟨h.2.1, h.2.2.1, h.2.2.2.1 reviewOk, h.2.2.2.2.2.2.1, h.2.2.2.2.2.2.2⟩

/-! ### C9 -/

/-- Claim C9: in every commit run, reaching the config load, the revision
resolution or the staging consistency check requires that the passphrase
was read and the identity unlocked first (they are the first two recorded
steps); when the unlock fails, none of those later checks ever runs. -/
theorem commit_unlock_precedes_validation (env : CommitEnv) (fs : FS) :
    (((∃ c, Event.configLoaded c ∈ (Repo.commit env fs).2.1) ∨
      (∃ r, Event.revisionRead r ∈ (Repo.commit env fs).2.1) ∨
      Event.currentEnforced ∈ (Repo.commit env fs).2.1) →
      (∃ p, env.read_passphrase = .ok p) ∧
      (∃ i, env.read_unlocked_id = .ok i) ∧
      (Repo.commit env fs).2.1.take 2 = [Event.passphraseRead, Event.idUnlocked]) ∧
    (∀ e, env.read_unlocked_id = .error e →
      (∀ c, Event.configLoaded c ∉ (Repo.commit env fs).2.1) ∧
      (∀ r, Event.revisionRead r ∉ (Repo.commit env fs).2.1) ∧
      Event.currentEnforced ∉ (Repo.commit env fs).2.1) := by
  obtain ⟨so, rp, lao, rui, lpc, git, ec, ed, sg, ap, lao2, wp⟩ := env
  constructor
  · intro h
    simp only [Repo.commit] at h ⊢
    repeat' split at h <;> (try simp_all)
  · intro e he
    simp only at he
    subst he
    simp only [Repo.commit]
    repeat' split <;> (try simp_all)

/-- Witness for C9: in `envOk` the trace starts with the passphrase read
and the identity unlock; with a failing unlock the consistency check
never runs. -/
theorem commit_unlock_precedes_validation_witness :
    (Repo.commit envOk fs0).2.1.take 2 = [Event.passphraseRead, Event.idUnlocked] ∧
    Event.currentEnforced ∉ (Repo.commit envUnlockErr fs0).2.1 := by
  have h1 := (commit_unlock_precedes_validation envOk fs0).1
    (Or.inr (Or.inr (by decide)))
  have h2 := (commit_unlock_precedes_validation envUnlockErr fs0).2
    "incorrect passphrase" rfl
  exact ⟨h1.2.2, h2.2.2⟩

/-! ### C3 -/

/-- In a repository whose status listing has a non-current tracked entry,
`try_read_git_revision` fails with the dirty-state error and prints an
offending tracked path (the first non-current listed entry) to stderr. -/
theorem dirty_tracked_git_state (g : GitEnv) (l : List StatusEntry) (e : StatusEntry)
    (h1 : g.dotGitExists = true) (h2 : g.openResult = .ok ())
    (h3 : g.stateClean = true) (h4 : g.statuses = .ok l)
    (h5 : e ∈ l) (h6 : e.untracked = false) (h7 : e.current = false) :
    ∃ e', e' ∈ l ∧ e'.untracked = false ∧ e'.current = false ∧
      try_read_git_revision g =
        (.error "Git repository is not in a clean state", [e'.path]) := by
  have hmem : e ∈ gitListedEntries false l := by
    simp [gitListedEntries, List.mem_filter, h5, h6]
  have hfind : ((gitListedEntries false l).find? (fun x => !x.current)).isSome := by
    apply List.find?_isSome.mpr
    exact ⟨e, hmem, by simp [h7]⟩
  obtain ⟨e0, he0⟩ := Option.isSome_iff_exists.mp hfind
  have he0mem : e0 ∈ gitListedEntries false l := List.mem_of_find?_eq_some he0
  have he0cur := List.find?_some he0
  simp only [Bool.not_eq_true'] at he0cur
  have he0l : e0 ∈ l ∧ (!e0.untracked) = true := by
    simpa [gitListedEntries, List.mem_filter] using he0mem
  refine ⟨e0, he0l.1, by simpa using he0l.2, he0cur, ?_⟩
  simp [try_read_git_revision, h1, h2, h3, h4, he0]

/-- Claim C3: (i) the clean check considers only tracked files — the
result of `try_read_git_revision` is unchanged if untracked entries are
removed from the status listing; (ii) any non-current tracked entry makes
it fail with the dirty-state error, reporting an offending tracked path
on stderr; (iii) on such a dirty tree, `commit` fails before any review
is built or signed. -/
theorem clean_check_tracked_only_and_blocks_signing :
    (∀ g : GitEnv,
      try_read_git_revision g =
        try_read_git_revision
          { g with statuses :=
              g.statuses.map (fun l => l.filter (fun e => !e.untracked)) }) ∧
    (∀ (g : GitEnv) (l : List StatusEntry) (e : StatusEntry),
      g.dotGitExists = true → g.openResult = .ok () → g.stateClean = true →
      g.statuses = .ok l → e ∈ l → e.untracked = false → e.current = false →
      (try_read_git_revision g).1 = .error "Git repository is not in a clean state" ∧
      ∃ e', e' ∈ l ∧ e'.untracked = false ∧ e'.current = false ∧
        (try_read_git_revision g).2 = [e'.path]) ∧
    (∀ (env : CommitEnv) (fs : FS) (l : List StatusEntry) (e : StatusEntry),
      env.git.dotGitExists = true → env.git.openResult = .ok () →
      env.git.stateClean = true → env.git.statuses = .ok l →
      e ∈ l → e.untracked = false → e.current = false →
      (Repo.commit env fs).1 ≠ .ok () ∧
      (∀ s, Event.proofSigned s ∉ (Repo.commit env fs).2.1) ∧
      (∀ r, Event.reviewBuilt r ∉ (Repo.commit env fs).2.1)) := by
  refine ⟨?_, ?_, ?_⟩
  · intro g
    obtain ⟨dg, op, sc, sts, ho⟩ := g
    cases sts with
    | error e => simp [try_read_git_revision, Except.map]
    | ok l =>
      simp [try_read_git_revision, gitListedEntries, Except.map,
        List.filter_filter, Bool.and_self]
  · intro g l e h1 h2 h3 h4 h5 h6 h7
    obtain ⟨e0, he0l, he0u, he0c, htry⟩ :=
      dirty_tracked_git_state g l e h1 h2 h3 h4 h5 h6 h7
    exact ⟨by simp [htry], e0, he0l, he0u, he0c, by simp [htry]⟩
  · intro env fs l e h1 h2 h3 h4 h5 h6 h7
    obtain ⟨e0, _, _, _, htry⟩ :=
      dirty_tracked_git_state env.git l e h1 h2 h3 h4 h5 h6 h7
    have hrev : (read_revision env.git).1 =
        .error "Git repository is not in a clean state" := by
      simp [read_revision, htry]
    obtain ⟨so, rp, lao, rui, lpc, git, ec, ed, sg, ap, lao2, wp⟩ := env
    simp only at hrev
    simp only [Repo.commit]
    repeat' split <;> (try simp_all)

/-- Witness for C3 at the concrete dirty git state `gitDirty`. -/
theorem clean_check_tracked_only_and_blocks_signing_witness :
    (try_read_git_revision gitDirty).1 =
      .error "Git repository is not in a clean state" ∧
    try_read_git_revision gitDirty =
      try_read_git_revision
        { gitDirty with statuses :=
            gitDirty.statuses.map (fun l => l.filter (fun e => !e.untracked)) } ∧
    (Repo.commit envDirty fs0).1 ≠ .ok () ∧
    Event.proofSigned "SIGNEDPROOF" ∉ (Repo.commit envDirty fs0).2.1 ∧
    Event.reviewBuilt reviewOk ∉ (Repo.commit envDirty fs0).2.1 := by
  have ha := clean_check_tracked_only_and_blocks_signing.1 gitDirty
  have hb := clean_check_tracked_only_and_blocks_signing.2.1 gitDirty
    [⟨"notes.txt", true, false⟩, ⟨"src/lib.rs", false, false⟩]
    ⟨"src/lib.rs", false, false⟩ rfl rfl rfl rfl (by decide) rfl rfl
  have hc := clean_check_tracked_only_and_blocks_signing.2.2 envDirty fs0
    [⟨"notes.txt", true, false⟩, ⟨"src/lib.rs", false, false⟩]
    ⟨"src/lib.rs", false, false⟩ rfl rfl rfl rfl (by decide) rfl rfl
  exact ⟨hb.1, ha, hc.1, hc.2.1 "SIGNEDPROOF", hc.2.2 reviewOk⟩

end Crev
